import Mathlib

/-!
Verification of the kana-dojo repository against its specification.

Part 1: the cron-triggered dispatch endpoint
(`POST /api/trigger-community-issue`, src/unnamed/part_000).
The handler reads two environment values (`CRON_SECRET`, `GITHUB_PAT`),
checks the inbound `Authorization` header, and issues at most one outbound
POST (a GitHub workflow dispatch) whose outcome is translated into one of
five HTTP responses.

Part 2: the `ClassicSessionSummary` component
(src/shared/components/Game/ClassicSessionSummary.tsx).

Part 3: the `formsByCategory` grouping of `ConjugationResults`
(src/features/Conjugator/components/ConjugationResults.tsx).
-/

namespace KanaDojo

/-- Constant `WORKFLOW_FILE` from the source. -/
def WORKFLOW_FILE : String := "hourly-community-issue.yml"

/-- Constant `REPO_OWNER` from the source. -/
def REPO_OWNER : String := "lingdojo"

/-- Constant `REPO_NAME` from the source. -/
def REPO_NAME : String := "kana-dojo"

/-- Constant `GITHUB_DISPATCH_TIMEOUT_MS` from the source. -/
def GITHUB_DISPATCH_TIMEOUT_MS : Nat := 8000

/-- The two environment values the handler reads.  `none` models an unset
variable (`process.env.X === undefined`). -/
structure Env where
  CRON_SECRET : Option String
  GITHUB_PAT : Option String
deriving DecidableEq

/-- The part of the inbound request the handler inspects:
`request.headers.get('authorization')`, `none` when the header is absent. -/
structure Request where
  authorization : Option String
deriving DecidableEq

/-- JavaScript truthiness of an optional string: `undefined` and the empty
string are falsy, every other string is truthy.  Models `!cronSecret` and
`!githubPat` guards. -/
def jsTruthy : Option String → Bool
  | none => false
  | some s => !(s == "")

/-- A JavaScript thrown value: either an `Error` object (with a `message`)
or any other value, kept as its `String(...)` rendering. -/
inductive JsThrown where
  | errorObj (message : String)
  | nonError (asString : String)
deriving DecidableEq

/-- `error instanceof Error ? error.message : String(error)` from the catch
block. -/
def thrownDetail : JsThrown → String
  | .errorObj m => m
  | .nonError s => s

/-- Outcome of the single `fetch` call: it either throws (network failure,
timeout abort), or completes with an upstream status and a body read that
may itself fail (`response.text().catch(() => ...)`), modelled by
`none`. -/
inductive FetchOutcome where
  | threw (e : JsThrown)
  | completed (status : Nat) (textResult : Option String)
deriving DecidableEq

/-- `Response.ok` of the fetch API: status in the inclusive range
200..299. -/
def responseOk (status : Nat) : Bool :=
  decide (200 ≤ status) && decide (status ≤ 299)

/-- The outbound request the handler hands to `fetch`. -/
structure OutboundRequest where
  method : String
  url : String
  headers : List (String × String)
  body : String
  timeoutMs : Nat
deriving DecidableEq

/-- The JSON bodies the handler can respond with, one constructor per
object literal in the source. -/
inductive ResponseBody where
  | errorOnly (error : String)
  | errorDetail (error : String) (detail : String)
  | githubError (error : String) (githubStatus : Nat) (githubBody : String)
  | okTrue
deriving DecidableEq

/-- An HTTP response: status code and JSON body. -/
structure HttpResponse where
  status : Nat
  body : ResponseBody
deriving DecidableEq

/-- The dispatch URL built by the handler. -/
def dispatchUrl : String :=
  "https://api.github.com/repos/" ++ REPO_OWNER ++ "/" ++ REPO_NAME ++
    "/actions/workflows/" ++ WORKFLOW_FILE ++ "/dispatches"

/-- The outbound request issued when all checks pass, as constructed in the
`fetch(url, ...)` call (the body is `JSON.stringify(\x7b ref: 'main' \x7d)`). -/
def dispatchRequest (githubPat : String) : OutboundRequest :=
  { method := "POST"
    url := dispatchUrl
    headers :=
      [("Authorization", "Bearer " ++ githubPat),
       ("Accept", "application/vnd.github+json"),
       ("X-GitHub-Api-Version", "2022-11-28"),
       ("Content-Type", "application/json")]
    body := "\x7b\"ref\":\"main\"\x7d"
    timeoutMs := GITHUB_DISPATCH_TIMEOUT_MS }

/-- The `POST` handler.  Since the only effect is the single `fetch`, the
handler is embedded as a function from the environment, the inbound
request, and the outcome the network would give to that fetch, to the
response paired with the list of outbound requests actually issued. -/
def POST (env : Env) (req : Request) (github : FetchOutcome) :
    HttpResponse × List OutboundRequest :=
  let cronSecret := env.CRON_SECRET
  if !jsTruthy cronSecret then
    (⟨500, .errorOnly "Cron not configured"⟩, [])
  else
    let authHeader := req.authorization
    if authHeader ≠ some ("Bearer " ++ cronSecret.getD "") then
      (⟨401, .errorOnly "Unauthorized"⟩, [])
    else
      let githubPat := env.GITHUB_PAT
      if !jsTruthy githubPat then
        (⟨500, .errorOnly "GITHUB_PAT not configured"⟩, [])
      else
        let call := dispatchRequest (githubPat.getD "")
        match github with
        | .threw e =>
            (⟨504, .errorDetail "GitHub dispatch request failed" (thrownDetail e)⟩, [call])
        | .completed status textResult =>
            if !responseOk status then
              (⟨502, .githubError "GitHub API error" status (textResult.getD "")⟩, [call])
            else
              (⟨200, .okTrue⟩, [call])

lemma jsTruthy_none : jsTruthy none = false := rfl

lemma jsTruthy_empty : jsTruthy (some "") = false := rfl

/-- All three guards pass: the secret is truthy, the header matches, the
token is truthy. -/
def checksPass (env : Env) (req : Request) : Prop :=
  jsTruthy env.CRON_SECRET = true ∧
    req.authorization = some ("Bearer " ++ env.CRON_SECRET.getD "") ∧
    jsTruthy env.GITHUB_PAT = true

instance (env : Env) (req : Request) : Decidable (checksPass env req) := by
  unfold checksPass; infer_instance

lemma POST_calls_of_pass (env : Env) (req : Request) (github : FetchOutcome)
    (h : checksPass env req) :
    (POST env req github).2 = [dispatchRequest (env.GITHUB_PAT.getD "")] := by
  obtain ⟨h1, h2, h3⟩ := h
  cases github with
  | threw e => simp [POST, h1, h2, h3]
  | completed status textResult =>
    by_cases hok : responseOk status = true <;> simp [POST, h1, h2, h3, hok]

lemma POST_calls_of_fail (env : Env) (req : Request) (github : FetchOutcome)
    (h : ¬ checksPass env req) :
    (POST env req github).2 = [] := by
  unfold checksPass at h
  by_cases h1 : jsTruthy env.CRON_SECRET = true
  · by_cases h2 : req.authorization = some ("Bearer " ++ env.CRON_SECRET.getD "")
    · by_cases h3 : jsTruthy env.GITHUB_PAT = true
      · exact absurd ⟨h1, h2, h3⟩ h
      · simp [POST, h1, h2, h3]
    · simp [POST, h1, h2]
  · simp [POST, h1]

/-- Claim C1: when `CRON_SECRET` is configured (truthy), any invocation
whose `Authorization` header is absent or differs from the exact string
`Bearer <configured-secret>` (case-sensitive, untrimmed) responds 401 with
body `\x7b error: 'Unauthorized' \x7d` and issues no outbound call. -/
theorem POST_unauthorized (env : Env) (req : Request) (github : FetchOutcome)
    (hsec : jsTruthy env.CRON_SECRET = true)
    (hauth : req.authorization ≠ some ("Bearer " ++ env.CRON_SECRET.getD "")) :
    POST env req github = (⟨401, .errorOnly "Unauthorized"⟩, []) := by
  simp [POST, hsec, hauth]

/-- Witness for C1: a case-mismatched header (`bearer` in lower case) is
rejected with 401 and no outbound call. -/
theorem POST_unauthorized_witness :
    POST ⟨some "s3cret", some "tok"⟩ ⟨some "bearer s3cret"⟩ (.completed 204 (some "")) =
      (⟨401, .errorOnly "Unauthorized"⟩, []) :=
  POST_unauthorized _ _ _ (by decide) (by decide)

/-- Claim C3: when `CRON_SECRET` is unset or empty, the handler responds
500 with the `Cron not configured` message, whatever the header is, and
issues no outbound call. -/
theorem POST_cron_not_configured (env : Env) (req : Request) (github : FetchOutcome)
    (hsec : env.CRON_SECRET = none ∨ env.CRON_SECRET = some "") :
    POST env req github = (⟨500, .errorOnly "Cron not configured"⟩, []) := by
  rcases hsec with h | h <;> simp [POST, h, jsTruthy]

/-- Witness for C3: with `CRON_SECRET` unset, even a plausible bearer
header gets 500 `Cron not configured` and no outbound call. -/
theorem POST_cron_not_configured_witness :
    POST ⟨none, some "tok"⟩ ⟨some "Bearer whatever"⟩ (.completed 204 (some "")) =
      (⟨500, .errorOnly "Cron not configured"⟩, []) :=
  POST_cron_not_configured _ _ _ (by left; rfl)

/-- Claim C4: when the header matches the configured secret but
`GITHUB_PAT` is unset or empty, the handler responds 500 with the
`GITHUB_PAT not configured` message — distinct from the `CRON_SECRET`
misconfiguration message — and issues no outbound call. -/
theorem POST_pat_not_configured (env : Env) (req : Request) (github : FetchOutcome)
    (hsec : jsTruthy env.CRON_SECRET = true)
    (hauth : req.authorization = some ("Bearer " ++ env.CRON_SECRET.getD ""))
    (hpat : env.GITHUB_PAT = none ∨ env.GITHUB_PAT = some "") :
    POST env req github = (⟨500, .errorOnly "GITHUB_PAT not configured"⟩, []) ∧
      ("GITHUB_PAT not configured" : String) ≠ "Cron not configured" := by
  refine ⟨?_, by decide⟩
  rcases hpat with h | h <;> simp [POST, hsec, hauth, h, jsTruthy_none, jsTruthy_empty]

/-- Witness for C4: matching header, `GITHUB_PAT` unset. -/
theorem POST_pat_not_configured_witness :
    POST ⟨some "s3cret", none⟩ ⟨some "Bearer s3cret"⟩ (.completed 204 (some "")) =
        (⟨500, .errorOnly "GITHUB_PAT not configured"⟩, []) ∧
      ("GITHUB_PAT not configured" : String) ≠ "Cron not configured" :=
  POST_pat_not_configured _ _ _ (by decide) (by decide) (by left; rfl)

/-- Claim C5: when the secret, auth, and token checks all pass, the handler
issues exactly one outbound POST to the workflow-dispatch URL for the fixed
(owner, repo, workflow-file) tuple, with a bearer-auth header carrying the
token, the API-version header pinned to `2022-11-28`, JSON body
`\x7b"ref":"main"\x7d`, and an 8000 ms abort timeout. -/
theorem POST_dispatch_request (env : Env) (req : Request) (github : FetchOutcome)
    (h : checksPass env req) :
    (POST env req github).2 = [dispatchRequest (env.GITHUB_PAT.getD "")] ∧
      dispatchRequest (env.GITHUB_PAT.getD "") =
        { method := "POST"
          url := "https://api.github.com/repos/lingdojo/kana-dojo/actions/workflows/hourly-community-issue.yml/dispatches"
          headers :=
            [("Authorization", "Bearer " ++ env.GITHUB_PAT.getD ""),
             ("Accept", "application/vnd.github+json"),
             ("X-GitHub-Api-Version", "2022-11-28"),
             ("Content-Type", "application/json")]
          body := "\x7b\"ref\":\"main\"\x7d"
          timeoutMs := 8000 } := by
  exact ⟨POST_calls_of_pass env req github h, rfl⟩

/-- Witness for C5 at a concrete passing configuration. -/
theorem POST_dispatch_request_witness :
    (POST ⟨some "s3cret", some "tok"⟩ ⟨some "Bearer s3cret"⟩ (.completed 204 (some ""))).2 =
        [dispatchRequest "tok"] ∧
      dispatchRequest "tok" =
        { method := "POST"
          url := "https://api.github.com/repos/lingdojo/kana-dojo/actions/workflows/hourly-community-issue.yml/dispatches"
          headers :=
            [("Authorization", "Bearer tok"),
             ("Accept", "application/vnd.github+json"),
             ("X-GitHub-Api-Version", "2022-11-28"),
             ("Content-Type", "application/json")]
          body := "\x7b\"ref\":\"main\"\x7d"
          timeoutMs := 8000 } :=
  POST_dispatch_request ⟨some "s3cret", some "tok"⟩ ⟨some "Bearer s3cret"⟩ _ (by decide)

/-- Claim C6: when the outbound call throws, the handler responds 504 with
JSON `\x7b error, detail \x7d` where `detail` is the thrown error's
message when the value is an `Error`, and its `String(...)` rendering
otherwise. -/
theorem POST_fetch_threw (env : Env) (req : Request) (e : JsThrown)
    (h : checksPass env req) :
    POST env req (.threw e) =
        (⟨504, .errorDetail "GitHub dispatch request failed" (thrownDetail e)⟩,
          [dispatchRequest (env.GITHUB_PAT.getD "")]) ∧
      (∀ m, e = .errorObj m → thrownDetail e = m) := by
  obtain ⟨h1, h2, h3⟩ := h
  refine ⟨by simp [POST, h1, h2, h3], ?_⟩
  intro m hm
  subst hm
  rfl

/-- Witness for C6: an abort error whose message surfaces as `detail`. -/
theorem POST_fetch_threw_witness :
    POST ⟨some "s3cret", some "tok"⟩ ⟨some "Bearer s3cret"⟩
          (.threw (.errorObj "The operation timed out.")) =
        (⟨504, .errorDetail "GitHub dispatch request failed" "The operation timed out."⟩,
          [dispatchRequest "tok"]) ∧
      (∀ m, JsThrown.errorObj "The operation timed out." = .errorObj m →
        thrownDetail (.errorObj "The operation timed out.") = m) :=
  POST_fetch_threw ⟨some "s3cret", some "tok"⟩ ⟨some "Bearer s3cret"⟩ _ (by decide)

/-- Claim C7: when the outbound call completes with a non-success status,
the handler responds 502 with JSON `\x7b error, githubStatus, githubBody \x7d`
carrying the upstream status and raw body, an empty string standing in when
the body read failed. -/
theorem POST_upstream_error (env : Env) (req : Request) (status : Nat)
    (textResult : Option String) (h : checksPass env req)
    (hstatus : responseOk status = false) :
    POST env req (.completed status textResult) =
        (⟨502, .githubError "GitHub API error" status (textResult.getD "")⟩,
          [dispatchRequest (env.GITHUB_PAT.getD "")]) ∧
      (textResult = none → textResult.getD "" = "") := by
  obtain ⟨h1, h2, h3⟩ := h
  refine ⟨by simp [POST, h1, h2, h3, hstatus], ?_⟩
  intro hn
  subst hn
  rfl

/-- Witness for C7: upstream 404 is echoed as `githubStatus` with the raw
body in `githubBody`. -/
theorem POST_upstream_error_witness :
    POST ⟨some "s3cret", some "tok"⟩ ⟨some "Bearer s3cret"⟩
          (.completed 404 (some "Not Found")) =
        (⟨502, .githubError "GitHub API error" 404 "Not Found"⟩,
          [dispatchRequest "tok"]) ∧
      ((some "Not Found" : Option String) = none →
        (some "Not Found" : Option String).getD "" = "") :=
  POST_upstream_error ⟨some "s3cret", some "tok"⟩ ⟨some "Bearer s3cret"⟩ 404
    (some "Not Found") (by decide) (by decide)

/-- Claim C8: when the outbound call completes with a success status
(`response.ok`, i.e. 200..299, covering 200 and 204), the handler responds
200 with body `\x7b ok: true \x7d`. -/
theorem POST_success (env : Env) (req : Request) (status : Nat)
    (textResult : Option String) (h : checksPass env req)
    (hok : responseOk status = true) :
    POST env req (.completed status textResult) =
      (⟨200, .okTrue⟩, [dispatchRequest (env.GITHUB_PAT.getD "")]) := by
  obtain ⟨h1, h2, h3⟩ := h
  simp [POST, h1, h2, h3, hok]

/-- Witness for C8 at upstream status 204 (the status GitHub returns for a
successful workflow dispatch). -/
theorem POST_success_witness :
    POST ⟨some "s3cret", some "tok"⟩ ⟨some "Bearer s3cret"⟩ (.completed 204 none) =
      (⟨200, .okTrue⟩, [dispatchRequest "tok"]) :=
  POST_success ⟨some "s3cret", some "tok"⟩ ⟨some "Bearer s3cret"⟩ 204 none
    (by decide) (by decide)

/-- Counterexample to claim C2 as stated: with `CRON_SECRET` unset, an
invocation issues zero outbound calls, not exactly one. -/
theorem POST_call_count_counterexample :
    ((POST ⟨none, none⟩ ⟨none⟩ (.completed 204 (some ""))).2).length ≠ 1 := by
  decide

/-- Claim C2 as amended: every invocation issues at most one outbound
call, and exactly one precisely when the secret, auth, and token checks
all pass; the unauthorized and misconfigured paths issue none. -/
theorem POST_outbound_call_count (env : Env) (req : Request) (github : FetchOutcome) :
    (POST env req github).2.length ≤ 1 ∧
      ((POST env req github).2.length = 1 ↔ checksPass env req) := by
  by_cases h : checksPass env req
  · rw [POST_calls_of_pass env req github h]
    simp [h]
  · rw [POST_calls_of_fail env req github h]
    simp [h]

/-! ## Part 2: `ClassicSessionSummary`

The component computes `total = correct + wrong` and
`accuracy = total > 0 ? Math.round((correct / total) * 100) : 0`, then
renders a grid of six stat cards (label, value); the accuracy card shows
the string `` `${accuracy}%` `` and the attempts card shows `total`. -/

/-- JavaScript `Math.round` on a non-negative rational: nearest integer,
ties toward positive infinity. -/
def mathRound (q : ℚ) : ℤ := ⌊q + 1 / 2⌋

/-- A `StatCard` value, which the component types as `string | number`. -/
inductive StatValue where
  | num (n : ℤ)
  | str (s : String)
deriving DecidableEq

/-- The stat-card grid of `ClassicSessionSummary` as (label, value) pairs,
in render order, with `total` and `accuracy` computed as in the source. -/
def ClassicSessionSummary (correct wrong bestStreak stars : ℕ) :
    List (String × StatValue) :=
  let total := correct + wrong
  let accuracy : ℤ :=
    if 0 < total then mathRound ((correct : ℚ) / (total : ℚ) * 100) else 0
  [("Correct", .num correct),
   ("Wrong", .num wrong),
   ("Accuracy", .str (toString accuracy ++ "%")),
   ("Best Streak", .num bestStreak),
   ("Stars", .num stars),
   ("Attempts", .num total)]

/-- Claim C9: in `ClassicSessionSummary`, the displayed accuracy equals
`Math.round(correct / (correct + wrong) * 100)` when `correct + wrong > 0`
and is exactly `0` when `correct + wrong = 0` (the division is guarded),
and the Attempts stat always equals `correct + wrong`. -/
theorem ClassicSessionSummary_accuracy (correct wrong bestStreak stars : ℕ) :
    (0 < correct + wrong →
      (ClassicSessionSummary correct wrong bestStreak stars).lookup "Accuracy" =
        some (.str (toString
          (mathRound ((correct : ℚ) / ((correct : ℚ) + (wrong : ℚ)) * 100)) ++ "%"))) ∧
    (correct + wrong = 0 →
      (ClassicSessionSummary correct wrong bestStreak stars).lookup "Accuracy" =
        some (.str "0%")) ∧
    (ClassicSessionSummary correct wrong bestStreak stars).lookup "Attempts" =
      some (.num ((correct : ℤ) + (wrong : ℤ))) := by
  refine ⟨?_, ?_, ?_⟩
  · intro h
    simp [ClassicSessionSummary, List.lookup, h]
  · intro h
    simp [ClassicSessionSummary, List.lookup, h]
    decide
  · simp [ClassicSessionSummary, List.lookup]

/-! ## Part 3: `ConjugationResults` grouping

`formsByCategory` folds `result.forms` into a JavaScript `Map` from
category to array of forms (`grouped.get(form.category) || []`, push,
`grouped.set`), and `categoriesWithForms` filters
`ALL_CONJUGATION_CATEGORIES` down to those whose bucket length
(`formsByCategory.get(cat)?.length ?? 0`) is positive.  The category type
and the non-category payload of a form are parameters: the `types` module
defining them is outside the provided sources, and the grouping never
inspects them beyond equality of categories. -/

/-- A conjugated form: its `category` field (the only one the grouping
reads) plus whatever other data the form carries. -/
structure ConjugationForm (C α : Type) where
  category : C
  payload : α
deriving DecidableEq

/-- A conjugation result: the `forms` array (the only field the grouping
reads). -/
structure ConjugationResult (C α : Type) where
  forms : List (ConjugationForm C α)
deriving DecidableEq

/-- `Map.get`: the value at the first (and only) entry with this key. -/
def mapGet {C β : Type} [DecidableEq C] : List (C × β) → C → Option β
  | [], _ => none
  | (k, v) :: rest, k' => if k' = k then some v else mapGet rest k'

/-- `Map.set`: replace the value at an existing key in place, else append
a new entry (JavaScript `Map` keeps insertion order). -/
def mapSet {C β : Type} [DecidableEq C] : List (C × β) → C → β → List (C × β)
  | [], k, v => [(k, v)]
  | (k0, v0) :: rest, k, v =>
      if k = k0 then (k0, v) :: rest else (k0, v0) :: mapSet rest k v

/-- One iteration of the grouping loop: fetch the bucket for the form's
category (empty when absent), push the form, store it back. -/
def groupStep {C α : Type} [DecidableEq C]
    (grouped : List (C × List (ConjugationForm C α))) (form : ConjugationForm C α) :
    List (C × List (ConjugationForm C α)) :=
  let existing := (mapGet grouped form.category).getD []
  mapSet grouped form.category (existing ++ [form])

/-- `formsByCategory`: the empty map for a `null` result, otherwise the
fold of the grouping loop over `result.forms`. -/
def formsByCategory {C α : Type} [DecidableEq C]
    (result : Option (ConjugationResult C α)) :
    List (C × List (ConjugationForm C α)) :=
  match result with
  | none => []
  | some r => r.forms.foldl groupStep []

/-- The bucket a category maps to, empty when the map has no entry for
it. -/
def bucket {C α : Type} [DecidableEq C]
    (grouped : List (C × List (ConjugationForm C α))) (c : C) :
    List (ConjugationForm C α) :=
  (mapGet grouped c).getD []

/-- `formsByCategory.get(cat)?.length ?? 0` from the source. -/
def categoryFormCount {C α : Type} [DecidableEq C]
    (grouped : List (C × List (ConjugationForm C α))) (c : C) : Nat :=
  match mapGet grouped c with
  | some forms => forms.length
  | none => 0

/-- `categoriesWithForms`: the members of `ALL_CONJUGATION_CATEGORIES`
(here a parameter, `allCats`) whose bucket is non-empty, in the fixed
order of that list. -/
def categoriesWithForms {C α : Type} [DecidableEq C] (allCats : List C)
    (result : Option (ConjugationResult C α)) : List C :=
  allCats.filter (fun cat => decide (0 < categoryFormCount (formsByCategory result) cat))

lemma mapGet_mapSet {C β : Type} [DecidableEq C] (m : List (C × β)) (k k' : C) (v : β) :
    mapGet (mapSet m k v) k' = if k' = k then some v else mapGet m k' := by
  induction m with
  | nil => simp [mapSet, mapGet]
  | cons hd tl ih =>
    obtain ⟨k0, v0⟩ := hd
    by_cases hk : k = k0
    · subst hk
      by_cases h' : k' = k <;> simp [mapSet, mapGet, h']
    · by_cases h' : k' = k0
      · subst h'
        have hk2 : ¬ k' = k := fun h => hk h.symm
        simp [mapSet, hk, mapGet, hk2]
      · simp [mapSet, hk, mapGet, h', ih]

lemma bucket_nil {C α : Type} [DecidableEq C] (c : C) :
    bucket ([] : List (C × List (ConjugationForm C α))) c = [] := rfl

lemma bucket_foldl {C α : Type} [DecidableEq C]
    (forms : List (ConjugationForm C α)) (g : List (C × List (ConjugationForm C α))) (c : C) :
    bucket (forms.foldl groupStep g) c =
      bucket g c ++ forms.filter (fun f => decide (f.category = c)) := by
  induction forms generalizing g with
  | nil => simp
  | cons f fs ih =>
    rw [List.foldl_cons, ih]
    unfold bucket groupStep
    rw [mapGet_mapSet]
    by_cases hc : c = f.category
    · subst hc
      simp [bucket]
    · have hc' : ¬ f.category = c := fun h => hc h.symm
      simp [hc, hc', bucket]

lemma categoryFormCount_eq_length {C α : Type} [DecidableEq C]
    (grouped : List (C × List (ConjugationForm C α))) (c : C) :
    categoryFormCount grouped c = (bucket grouped c).length := by
  unfold categoryFormCount bucket
  cases mapGet grouped c <;> rfl

/-- Claim C10: `formsByCategory` partitions `result.forms` — each bucket
holds exactly the forms of its category in their original order (so each
form lands in exactly one bucket), `categoriesWithForms` is exactly the
sublist of the fixed category list whose bucket is non-empty, in that
fixed order, and a `null` result yields the empty grouping. -/
theorem ConjugationResults_grouping {C α : Type} [DecidableEq C] [DecidableEq α]
    (allCats : List C) (r : ConjugationResult C α) :
    (∀ c, bucket (formsByCategory (some r)) c =
        r.forms.filter (fun f => decide (f.category = c))) ∧
    (∀ f c, f ∈ bucket (formsByCategory (some r)) c ↔ f ∈ r.forms ∧ f.category = c) ∧
    (categoriesWithForms allCats (some r) =
        allCats.filter (fun c => decide (bucket (formsByCategory (some r)) c ≠ []))) ∧
    formsByCategory (none : Option (ConjugationResult C α)) = [] := by
  have hb : ∀ c, bucket (formsByCategory (some r)) c =
      r.forms.filter (fun f => decide (f.category = c)) := by
    intro c
    show bucket (r.forms.foldl groupStep []) c = _
    rw [bucket_foldl, bucket_nil, List.nil_append]
  refine ⟨hb, ?_, ?_, rfl⟩
  · intro f c
    rw [hb]
    simp [List.mem_filter]
  · unfold categoriesWithForms
    apply List.filter_congr
    intro c _
    rw [categoryFormCount_eq_length]
    simp [decide_eq_decide, List.length_pos]

end KanaDojo
